import Mathlib

/-!
Verification of the natural-language specification of two reinforcement-learning
exercise scripts: a DDPG agent (`labs/08/ddpg.py`) and a differentiable-memory
agent for a card-matching game (`labs/14/memory_game.tf.py`).  The scripts are
shallowly embedded below: floating-point parameters are modelled as rationals,
the framework tensors as lists, the global NumPy RNG as an explicit stream of
draws, and Python exceptions as `Except` values.
-/

/-- Python exceptions raised by the two scripts: `raise NotImplementedError()`
in the unimplemented TODO methods, and `assert` failures in `main`. -/
inductive PyError where
  | notImplementedError
  | assertionError
  deriving DecidableEq

namespace DDPG

/-- Transition record appended to the replay buffer after each environment
step: `Transition = namedtuple("Transition", ["state", "action", "reward", "done", "next_state"])`. -/
structure Transition where
  state : List ℚ
  action : List ℚ
  reward : ℚ
  done : Bool
  next_state : List ℚ
  deriving DecidableEq

/-- Exponential-moving-average update of a single target parameter.
Modelled from the spec: `Network.train` in `ddpg.py` is an unimplemented TODO;
the update it is documented to perform appears as pseudocode in the source
comment: `target_param.data.mul_(1 - target_tau)` followed by
`target_param.data.add_(target_tau * param.data)`. -/
def emaParam (tau target param : ℚ) : ℚ :=
  target * (1 - tau) + tau * param

/-- Elementwise EMA update of the target parameter vector from the online
parameter vector, zipping the two parameter lists as the source comment's
`zip(source.parameters(), target.parameters())` does. -/
def emaUpdate (tau : ℚ) (target online : List ℚ) : List ℚ :=
  List.zipWith (fun t p => emaParam tau t p) target online

/-- One `Network.train` call as documented: first the online parameters are
updated by an (unimplemented, hence opaque) gradient step `onlineUpd`, then the
target parameters are updated by the exponential moving average of the new
online parameters.  The target parameters receive no gradient update: the
second component is a function of `tau`, the old target and the new online
parameters only. -/
def trainNetworks (tau : ℚ) (onlineUpd : List ℚ → List ℚ)
    (online target : List ℚ) : List ℚ × List ℚ :=
  (onlineUpd online, emaUpdate tau target (onlineUpd online))

/-- Bounded FIFO replay buffer.
Modelled from the spec: `wrappers.ReplayBuffer` is not among the given source
files; per the spec it is an ordered collection with a maximum length, whose
insertion is append-only with oldest-eviction once full, and whose sampling
draws a uniformly random subset without mutating the buffer. -/
structure ReplayBuffer (α : Type) where
  maxLength : ℕ
  data : List α
  deriving DecidableEq

/-- Append one element, evicting from the front whatever exceeds `maxLength`:
when the buffer is not yet full this is a plain append, when it is full the
single oldest entry is dropped. -/
def ReplayBuffer.append {α : Type} (b : ReplayBuffer α) (x : α) : ReplayBuffer α :=
  ⟨b.maxLength, (b.data ++ [x]).drop (b.data.length + 1 - b.maxLength)⟩

/-- Appending a whole sequence of elements in order. -/
def ReplayBuffer.appendAll {α : Type} (b : ReplayBuffer α) (xs : List α) : ReplayBuffer α :=
  xs.foldl ReplayBuffer.append b

/-- Sampling a batch of `n` entries.
Modelled from the spec: the randomness of the uniformly random subset is
abstracted as a permutation `shuffle` applied to the buffer contents; the batch
is the first `n` elements of the shuffled contents. -/
def ReplayBuffer.sample {α : Type} (b : ReplayBuffer α) (n : ℕ)
    (shuffle : List α → List α) : List α :=
  (shuffle b.data).take n

/-- A `sample` call as a state transformer on the buffer: it returns the batch
together with the buffer as it is after the call.  Modelled from the spec:
sampling draws a subset without mutating the buffer. -/
def ReplayBuffer.sampleCall {α : Type} (b : ReplayBuffer α) (n : ℕ)
    (shuffle : List α → List α) : List α × ReplayBuffer α :=
  (b.sample n shuffle, b)

/-- One inner step of the DDPG training loop after the environment step:
`replay_buffer.append(Transition(...))`, then `continue` without sampling or
training while `len(replay_buffer) < 4 * args.batch_size`, otherwise
`batch = replay_buffer.sample(args.batch_size, np.random)` followed by the
(unimplemented) training update.  The result is the buffer after the step and
the sampled batch, `none` when the step only appended. -/
def innerStep (batch_size : ℕ) (b : ReplayBuffer Transition) (t : Transition)
    (shuffle : List Transition → List Transition) :
    ReplayBuffer Transition × Option (List Transition) :=
  let b' := b.append t
  if b'.data.length < 4 * batch_size then (b', none)
  else (b', some (b'.sample batch_size shuffle))

/-- Environment description used by the DDPG script: an action-space shape and
the action bounds exposed by the environment adapter. -/
structure EnvSpec where
  action_shape : ℕ
  action_low : List ℚ
  action_high : List ℚ

/-- Command-line hyperparameters of the DDPG script. -/
structure Args where
  batch_size : ℕ
  evaluate_each : ℕ
  evaluate_for : ℕ
  gamma : ℚ
  hidden_layer_size : ℕ
  learning_rate : ℚ
  noise_sigma : ℚ
  noise_theta : ℚ
  target_tau : ℚ

/-- The DDPG `Network` object; no field beyond the class-level device flag is
ever populated, because the constructor is unimplemented. -/
structure Network where
  onCuda : Bool

/-- Constructor `Network.__init__`: its body is `raise NotImplementedError()`. -/
def Network.init (env : EnvSpec) (args : Args) : Except PyError Network :=
  Except.error PyError.notImplementedError

/-- Method `Network.train`: its body is `raise NotImplementedError()` (the
argument conversion performed by `wrappers.typed_torch_function` happens before
the body runs and does not catch the exception). -/
def Network.train (self : Network) (states actions returns : List (List ℚ)) :
    Except PyError Unit :=
  Except.error PyError.notImplementedError

/-- Method `Network.predict_actions`: its body is `raise NotImplementedError()`. -/
def Network.predict_actions (self : Network) (states : List (List ℚ)) :
    Except PyError (List (List ℚ)) :=
  Except.error PyError.notImplementedError

/-- Method `Network.predict_values`: its body is `raise NotImplementedError()`. -/
def Network.predict_values (self : Network) (states : List (List ℚ)) :
    Except PyError (List ℚ) :=
  Except.error PyError.notImplementedError

/-- The `main` function of `ddpg.py` up to its first fallible call: it
constructs the network with `Network(env, args)` before anything else; no
handler surrounds the call, so an exception propagates and halts the process.
The buffer construction and the training loop that follow the constructor are
never reached and are elided as the trivial continuation. -/
def ddpgMain (env : EnvSpec) (args : Args) : Except PyError Unit :=
  (Network.init env args).bind (fun _network => Except.ok ())

/-- Episode-level phase of the DDPG main loop: the counter of the current
training episode within the `for _ in range(args.evaluate_each)` loop, the
counter of the current evaluation episode within the
`for _ in range(args.evaluate_for)` comprehension, or the final-evaluation
section after the `while training` loop exits. -/
inductive LoopPhase where
  | trainEp : ℕ → LoopPhase
  | evalEp : ℕ → LoopPhase
  | finalEp : LoopPhase
  deriving DecidableEq

/-- The `training` flag of `main`: it is assigned `True` before the loop and no
statement of the script ever assigns it again. -/
def trainingFlag : Bool := true

/-- One episode-level transition of the main loop: training episodes count up
to `evaluate_each`, then evaluation episodes count up to `evaluate_for`, then
the `while training` condition is tested and the loop either restarts the
training episodes or falls through to the final-evaluation section. -/
def phaseStep (evaluate_each evaluate_for : ℕ) (training : Bool) :
    LoopPhase → LoopPhase
  | .trainEp i => if i + 1 < evaluate_each then .trainEp (i + 1) else .evalEp 0
  | .evalEp j =>
      if j + 1 < evaluate_for then .evalEp (j + 1)
      else if training then .trainEp 0 else .finalEp
  | .finalEp => .finalEp

/-- The phase of the n-th episode of `main`, starting from the first training
episode, with the `training` flag fixed at its value in the script. -/
def loopTrace (evaluate_each evaluate_for : ℕ) : ℕ → LoopPhase
  | 0 => .trainEp 0
  | k + 1 => phaseStep evaluate_each evaluate_for trainingFlag
      (loopTrace evaluate_each evaluate_for k)

/-- Elementwise Ornstein-Uhlenbeck recurrence from
`OrnsteinUhlenbeckNoise.sample`:
`state += theta * (mu - state) + normal(scale=sigma)`, where `draw` is the
vector of scaled normal variates produced by the seeded global NumPy RNG. -/
def ouStep (theta : ℚ) (mu state draw : List ℚ) : List ℚ :=
  List.zipWith (fun s md => s + theta * (md.1 - s) + md.2) state (mu.zip draw)

/-- State of `OrnsteinUhlenbeckNoise`: the mean vector `mu`, the scalar
coefficients, and the current state vector. -/
structure OUNoise where
  mu : List ℚ
  theta : ℚ
  sigma : ℚ
  state : List ℚ
  deriving DecidableEq

/-- Constructor `OrnsteinUhlenbeckNoise.__init__`: `mu` becomes
`mu * np.ones(shape)` and `reset()` is called, so the state starts at `mu`. -/
def OUNoise.init (shape : ℕ) (muScalar theta sigma : ℚ) : OUNoise :=
  ⟨List.replicate shape muScalar, theta, sigma, List.replicate shape muScalar⟩

/-- Method `reset`: `self.state = np.copy(self.mu)`. -/
def OUNoise.reset (n : OUNoise) : OUNoise :=
  ⟨n.mu, n.theta, n.sigma, n.mu⟩

/-- Method `sample`: updates the state by the OU recurrence with the next
vector drawn from the RNG stream and returns the new state. -/
def OUNoise.sampleStep (n : OUNoise) (draw : List ℚ) : OUNoise :=
  ⟨n.mu, n.theta, n.sigma, ouStep n.theta n.mu n.state draw⟩

/-- The noise object after `k` consecutive `sample` calls without a `reset`,
where `draws k` is the vector drawn from the RNG at the k-th call; the RNG
stream is the unique source of randomness and is fully determined by the seed
passed to `np.random.seed`. -/
def OUNoise.run (n : OUNoise) (draws : ℕ → List ℚ) : ℕ → OUNoise
  | 0 => n
  | k + 1 => (OUNoise.run n draws k).sampleStep (draws k)

end DDPG

namespace MemoryGame

/-- The memory-game `Network` object, carrying the sizes taken from the parsed
arguments. -/
structure Network where
  memory_cells : ℕ
  memory_cell_size : ℕ

/-- Method `Network.zero_memory`: its body is `raise NotImplementedError()`. -/
def Network.zero_memory (self : Network) : Except PyError (List (List ℚ)) :=
  Except.error PyError.notImplementedError

/-- Method `Network._train`: its body is `raise NotImplementedError()`. -/
def Network._train (self : Network) (states : List (List (ℕ × ℕ)))
    (targets : List (List ℕ)) : Except PyError Unit :=
  Except.error PyError.notImplementedError

/-- Method `Network.train` (taking a list of episodes): its body is
`raise NotImplementedError()`. -/
def Network.train (self : Network) (episodes : List (List ((ℕ × ℕ) × ℕ))) :
    Except PyError Unit :=
  Except.error PyError.notImplementedError

/-- Command-line arguments of the memory-game script; the three sizes are
`none` when left unset, mirroring the `is None` checks in `main`. -/
structure MemArgs where
  cards : ℕ
  batch_size : ℕ
  evaluate_each : ℕ
  evaluate_for : ℕ
  hidden_layer : Option ℕ
  memory_cells : Option ℕ
  memory_cell_size : Option ℕ

/-- Default post-processing at the top of `main`: unset sizes become
`8 * cards`, `2 * cards` and `3 * cards // 2` respectively. -/
def postProcess (a : MemArgs) : MemArgs :=
  ⟨a.cards, a.batch_size, a.evaluate_each, a.evaluate_for,
   some (a.hidden_layer.getD (8 * a.cards)),
   some (a.memory_cells.getD (2 * a.cards)),
   some (a.memory_cell_size.getD (3 * a.cards / 2))⟩

/-- The prefix of the memory-game `main` around the assertion: after the
default post-processing, `assert sum(env.observation_space.nvec) ==
args.memory_cell_size` runs, and only past it is the network constructed.  The
`ok` value carries the post-processed arguments together with the constructed
network; the assertion failure is an uncaught `AssertionError` that halts the
process. -/
def memMainStart (nvec : List ℕ) (a : MemArgs) : Except PyError (MemArgs × Network) :=
  let a2 := postProcess a
  if nvec.sum = a2.memory_cell_size.getD 0 then
    Except.ok (a2, ⟨a2.memory_cells.getD 0, a2.memory_cell_size.getD 0⟩)
  else Except.error PyError.assertionError

/-- The arguments of the successive `network.train` calls in one training
cycle of the memory-game `main`: the outer loop runs
`args.evaluate_each // args.batch_size` times, each iteration collecting
`args.batch_size` expert episodes (here `expert j` is the j-th episode
produced by `env.expert_episode()`) and passing them to `network.train`. -/
def trainCalls {α : Type} (evaluate_each batch_size : ℕ) (expert : ℕ → α) :
    List (List α) :=
  (List.range (evaluate_each / batch_size)).map
    (fun i => (List.range batch_size).map (fun j => expert (i * batch_size + j)))

end MemoryGame

theorem emaUpdate_length (tau : ℚ) (target online : List ℚ) :
    (DDPG.emaUpdate tau target online).length = min target.length online.length := by
  simp [DDPG.emaUpdate]

theorem emaUpdate_getD (tau : ℚ) (target online : List ℚ) (i : ℕ)
    (hi : i < target.length) (hlen : target.length = online.length) :
    (DDPG.emaUpdate tau target online).getD i 0
      = (1 - tau) * target.getD i 0 + tau * online.getD i 0 := by
  induction target generalizing online i with
  | nil => exact absurd hi (by simp)
  | cons t ts ih =>
      cases online with
      | nil => exact absurd hlen (by simp)
      | cons p ps =>
          cases i with
          | zero => simp [DDPG.emaUpdate, DDPG.emaParam]; ring
          | succ j =>
              have hj : j < ts.length := by
                simpa using Nat.lt_of_succ_lt_succ hi
              have hlen' : ts.length = ps.length := by simpa using hlen
              simpa [DDPG.emaUpdate, List.getD] using ih ps j hj hlen'

theorem append_maxLength {α : Type} (b : DDPG.ReplayBuffer α) (x : α) :
    (b.append x).maxLength = b.maxLength := rfl

theorem append_length_le {α : Type} (b : DDPG.ReplayBuffer α) (x : α) :
    (b.append x).data.length ≤ b.maxLength := by
  simp only [DDPG.ReplayBuffer.append, List.length_drop, List.length_append,
    List.length_singleton]
  omega

theorem appendAll_length_le {α : Type} (b : DDPG.ReplayBuffer α) (xs : List α)
    (h : b.data.length ≤ b.maxLength) :
    (b.appendAll xs).data.length ≤ b.maxLength := by
  induction xs generalizing b with
  | nil => simpa [DDPG.ReplayBuffer.appendAll] using h
  | cons x xs ih =>
      have hstep := append_length_le b x
      have hmax := append_maxLength b x
      have := ih (b.append x) (by rw [hmax]; exact hstep)
      simpa [DDPG.ReplayBuffer.appendAll, hmax] using this

theorem phaseStep_ne_final (each fore : ℕ) (p : DDPG.LoopPhase)
    (hp : p ≠ DDPG.LoopPhase.finalEp) :
    DDPG.phaseStep each fore DDPG.trainingFlag p ≠ DDPG.LoopPhase.finalEp := by
  cases p with
  | trainEp i =>
      by_cases h : i + 1 < each <;> simp [DDPG.phaseStep, h]
  | evalEp j =>
      by_cases h : j + 1 < fore <;> simp [DDPG.phaseStep, DDPG.trainingFlag, h]
  | finalEp => exact absurd rfl hp

theorem loopTrace_ne_final (each fore : ℕ) (n : ℕ) :
    DDPG.loopTrace each fore n ≠ DDPG.LoopPhase.finalEp := by
  induction n with
  | zero => simp [DDPG.loopTrace]
  | succ k ih =>
      simpa [DDPG.loopTrace] using phaseStep_ne_final each fore _ ih

theorem run_mu (n : DDPG.OUNoise) (draws : ℕ → List ℚ) (k : ℕ) :
    (DDPG.OUNoise.run n draws k).mu = n.mu := by
  induction k with
  | zero => rfl
  | succ m ih => simp [DDPG.OUNoise.run, DDPG.OUNoise.sampleStep, ih]

/-- C1: after every online update performed by `Network.train`, the target
parameters equal `(1 - tau) * old_target + tau * online` elementwise, for all
`tau` in `[0, 1]`, where `online` is the online parameter vector after its
gradient step; the target parameters are produced by the EMA formula alone,
never by the gradient step `u` itself. -/
theorem C1_target_ema_update (tau : ℚ) (h0 : 0 ≤ tau) (h1 : tau ≤ 1)
    (u : List ℚ → List ℚ) (online target : List ℚ)
    (hlen : target.length = (u online).length) :
    ((DDPG.trainNetworks tau u online target).2).length = target.length ∧
    ∀ i, i < target.length →
      ((DDPG.trainNetworks tau u online target).2).getD i 0
        = (1 - tau) * target.getD i 0 + tau * ((u online).getD i 0) := by
  constructor
  · simp [DDPG.trainNetworks, emaUpdate_length, hlen]
  · intro i hi
    exact emaUpdate_getD tau target (u online) i hi hlen

/-- Witness for C1 at `tau = 1/2`, online update doubling each parameter,
`online = [3, 5]`, `target = [1, 2]`. -/
theorem C1_target_ema_update_witness :
    ((DDPG.trainNetworks (1/2) (fun l => l.map (fun x => 2 * x)) [3, 5] [1, 2]).2).length
        = ([1, 2] : List ℚ).length ∧
    ∀ i, i < ([1, 2] : List ℚ).length →
      ((DDPG.trainNetworks (1/2) (fun l => l.map (fun x => 2 * x)) [3, 5] [1, 2]).2).getD i 0
        = (1 - 1/2) * (([1, 2] : List ℚ).getD i 0)
            + (1/2) * ((([3, 5] : List ℚ).map (fun x => 2 * x)).getD i 0) :=
  C1_target_ema_update (1/2) (by norm_num) (by norm_num)
    (fun l => l.map (fun x => 2 * x)) [3, 5] [1, 2] rfl

/-- C2: for every sequence of appends into a buffer that starts empty, the
replay buffer length never exceeds the configured maximum, and once full
(length equal to a positive maximum), an append evicts exactly the oldest
entry: the new contents are the old contents without their head, followed by
the new element. -/
theorem C2_replay_bounded_fifo {α : Type} (m : ℕ) (xs : List α)
    (b : DDPG.ReplayBuffer α) (x : α)
    (hfull : b.data.length = b.maxLength) (hpos : 0 < b.maxLength) :
    (DDPG.ReplayBuffer.appendAll ⟨m, []⟩ xs).data.length ≤ m ∧
    (b.append x).data = b.data.drop 1 ++ [x] := by
  refine ⟨?_, ?_⟩
  · simpa using appendAll_length_le (⟨m, []⟩ : DDPG.ReplayBuffer α) xs (by simp)
  · have hdropped : b.data.length + 1 - b.maxLength = 1 := by omega
    have hone : 1 ≤ b.data.length := by omega
    simp [DDPG.ReplayBuffer.append, hdropped, List.drop_append_of_le_length hone]

/-- Witness for C2: appends `[1, 2, 3]` into an empty buffer of capacity 2, and
appends `7` into the full buffer `[5, 6]` of capacity 2, evicting `5`. -/
theorem C2_replay_bounded_fifo_witness :
    (DDPG.ReplayBuffer.appendAll (⟨2, []⟩ : DDPG.ReplayBuffer ℕ) [1, 2, 3]).data.length ≤ 2 ∧
    ((⟨2, [5, 6]⟩ : DDPG.ReplayBuffer ℕ).append 7).data = [5, 6].drop 1 ++ [7] :=
  C2_replay_bounded_fifo 2 [1, 2, 3] (⟨2, [5, 6]⟩ : DDPG.ReplayBuffer ℕ) 7 rfl (by decide)

/-- C3 counterexample: the claim says the loop eventually reaches the FINAL
state, but in the script the `training` flag is set to `True` once and never
assigned again, so with the default `evaluate_each = 50` and
`evaluate_for = 50` no episode of the loop is ever in the final-evaluation
phase. -/
theorem C3_final_unreachable :
    ¬ ∃ n, DDPG.loopTrace 50 50 n = DDPG.LoopPhase.finalEp :=
  fun ⟨n, h⟩ => loopTrace_ne_final 50 50 n h

/-- C3 amended: the loop alternates TRAIN and EVALUATE phases governed by the
fixed episode counters `evaluate_each` and `evaluate_for` (training episodes
count up to `evaluate_each`, then evaluation episodes count up to
`evaluate_for`, then training restarts), and the FINAL phase is never reached
because the `training` flag is never cleared; the WARMUP behaviour is not a
separate loop phase but the sub-threshold portion of the training steps. -/
theorem C3_loop_fixed_counters (each fore : ℕ) (h1 : 0 < each) (h2 : 0 < fore) :
    (∀ i, i + 1 < each →
      DDPG.phaseStep each fore DDPG.trainingFlag (DDPG.LoopPhase.trainEp i)
        = DDPG.LoopPhase.trainEp (i + 1)) ∧
    (DDPG.phaseStep each fore DDPG.trainingFlag (DDPG.LoopPhase.trainEp (each - 1))
        = DDPG.LoopPhase.evalEp 0) ∧
    (∀ j, j + 1 < fore →
      DDPG.phaseStep each fore DDPG.trainingFlag (DDPG.LoopPhase.evalEp j)
        = DDPG.LoopPhase.evalEp (j + 1)) ∧
    (DDPG.phaseStep each fore DDPG.trainingFlag (DDPG.LoopPhase.evalEp (fore - 1))
        = DDPG.LoopPhase.trainEp 0) ∧
    (∀ n, DDPG.loopTrace each fore n ≠ DDPG.LoopPhase.finalEp) := by
  refine ⟨?_, ?_, ?_, ?_, loopTrace_ne_final each fore⟩
  · intro i hi; simp [DDPG.phaseStep, hi]
  · have h : ¬ (each - 1 + 1 < each) := by omega
    simp [DDPG.phaseStep, h]
  · intro j hj; simp [DDPG.phaseStep, hj]
  · have h : ¬ (fore - 1 + 1 < fore) := by omega
    simp [DDPG.phaseStep, h, DDPG.trainingFlag]

/-- Witness for the amended C3 at the default counters
`evaluate_each = 50` and `evaluate_for = 50`. -/
theorem C3_loop_fixed_counters_witness :
    (∀ i, i + 1 < 50 →
      DDPG.phaseStep 50 50 DDPG.trainingFlag (DDPG.LoopPhase.trainEp i)
        = DDPG.LoopPhase.trainEp (i + 1)) ∧
    (DDPG.phaseStep 50 50 DDPG.trainingFlag (DDPG.LoopPhase.trainEp (50 - 1))
        = DDPG.LoopPhase.evalEp 0) ∧
    (∀ j, j + 1 < 50 →
      DDPG.phaseStep 50 50 DDPG.trainingFlag (DDPG.LoopPhase.evalEp j)
        = DDPG.LoopPhase.evalEp (j + 1)) ∧
    (DDPG.phaseStep 50 50 DDPG.trainingFlag (DDPG.LoopPhase.evalEp (50 - 1))
        = DDPG.LoopPhase.trainEp 0) ∧
    (∀ n, DDPG.loopTrace 50 50 n ≠ DDPG.LoopPhase.finalEp) :=
  C3_loop_fixed_counters 50 50 (by decide) (by decide)

/-- C4: every unimplemented operation (the DDPG `Network.__init__`, `train`,
`predict_actions` and `predict_values`, and the memory-game `zero_memory`,
`_train` and `train`) unconditionally fails with the not-implemented error on
every input, and the DDPG `main` propagates this failure from its very first
fallible call, so the error is fatal to the whole run. -/
theorem C4_unimplemented_raise :
    (∀ env args, DDPG.Network.init env args
        = Except.error PyError.notImplementedError) ∧
    (∀ n s a r, DDPG.Network.train n s a r
        = Except.error PyError.notImplementedError) ∧
    (∀ n s, DDPG.Network.predict_actions n s
        = Except.error PyError.notImplementedError) ∧
    (∀ n s, DDPG.Network.predict_values n s
        = Except.error PyError.notImplementedError) ∧
    (∀ n, MemoryGame.Network.zero_memory n
        = Except.error PyError.notImplementedError) ∧
    (∀ n s t, MemoryGame.Network._train n s t
        = Except.error PyError.notImplementedError) ∧
    (∀ n e, MemoryGame.Network.train n e
        = Except.error PyError.notImplementedError) ∧
    (∀ env args, DDPG.ddpgMain env args
        = Except.error PyError.notImplementedError) :=
  ⟨fun _ _ => rfl, fun _ _ _ _ => rfl, fun _ _ => rfl, fun _ _ => rfl,
   fun _ => rfl, fun _ _ _ => rfl, fun _ _ => rfl, fun _ _ => rfl⟩

/-- C5: in the DDPG inner loop, a step whose post-append buffer holds fewer
than `4 * batch_size` transitions only appends the transition: the buffer
becomes `b.append t` and no batch is sampled (hence no training update runs);
conversely, whenever a batch is sampled the post-append buffer already holds
at least `4 * batch_size` transitions. -/
theorem C5_warmup_threshold (batch_size : ℕ) (b : DDPG.ReplayBuffer DDPG.Transition)
    (t : DDPG.Transition)
    (shuffle : List DDPG.Transition → List DDPG.Transition)
    (h : (b.append t).data.length < 4 * batch_size) :
    DDPG.innerStep batch_size b t shuffle = (b.append t, none) ∧
    (∀ batch, (DDPG.innerStep batch_size b t shuffle).2 = some batch →
      4 * batch_size ≤ (b.append t).data.length) := by
  constructor
  · simp [DDPG.innerStep, h]
  · intro batch hbatch
    simp [DDPG.innerStep, h] at hbatch

/-- Witness for C5 with `batch_size = 2` and an empty buffer of capacity 10:
after appending one transition the buffer holds 1 < 8 entries. -/
theorem C5_warmup_threshold_witness :
    DDPG.innerStep 2 (⟨10, []⟩ : DDPG.ReplayBuffer DDPG.Transition)
        ⟨[0], [0], 0, false, [1]⟩ id
      = ((⟨10, []⟩ : DDPG.ReplayBuffer DDPG.Transition).append ⟨[0], [0], 0, false, [1]⟩,
         none) ∧
    (∀ batch,
      (DDPG.innerStep 2 (⟨10, []⟩ : DDPG.ReplayBuffer DDPG.Transition)
          ⟨[0], [0], 0, false, [1]⟩ id).2 = some batch →
      4 * 2 ≤ ((⟨10, []⟩ : DDPG.ReplayBuffer DDPG.Transition).append
          ⟨[0], [0], 0, false, [1]⟩).data.length) :=
  C5_warmup_threshold 2 (⟨10, []⟩ : DDPG.ReplayBuffer DDPG.Transition)
    ⟨[0], [0], 0, false, [1]⟩ id (by decide)

/-- C6: whenever the buffer holds at least `n` entries, sampling returns a
batch of exactly `n` entries (for any shuffle that permutes the contents). -/
theorem C6_sample_batch_size {α : Type} (b : DDPG.ReplayBuffer α) (n : ℕ)
    (shuffle : List α → List α)
    (hperm : (shuffle b.data).Perm b.data) (hn : n ≤ b.data.length) :
    (b.sample n shuffle).length = n := by
  simp only [DDPG.ReplayBuffer.sample, List.length_take, hperm.length_eq]
  omega

/-- Witness for C6 with the identity shuffle, the buffer `[1, 2, 3]` and a
requested batch size of 2. -/
theorem C6_sample_batch_size_witness :
    ((⟨3, [1, 2, 3]⟩ : DDPG.ReplayBuffer ℕ).sample 2 id).length = 2 :=
  C6_sample_batch_size (⟨3, [1, 2, 3]⟩ : DDPG.ReplayBuffer ℕ) 2 id
    (List.Perm.refl _) (by decide)

/-- C7: a sample call leaves the buffer unchanged: after the call, the same
entries remain, in the same order, with the same length and the same
configured maximum size, for every buffer content and requested batch size. -/
theorem C7_sample_frame {α : Type} (b : DDPG.ReplayBuffer α) (n : ℕ)
    (shuffle : List α → List α) :
    (b.sampleCall n shuffle).2.data = b.data ∧
    (b.sampleCall n shuffle).2.data.length = b.data.length ∧
    (b.sampleCall n shuffle).2.maxLength = b.maxLength :=
  ⟨rfl, rfl, rfl⟩

/-- C8: the sequence of states produced by repeated `sample` calls without an
intervening `reset` is a deterministic function of the RNG draw stream (hence
of the seed, which fully determines the stream of `np.random.normal` draws):
two runs whose streams agree produce identical state sequences; moreover
`reset` returns the state exactly to the mean vector, both after any number of
samples and right after construction, where the mean vector is
`mu * np.ones(shape)`. -/
theorem C8_noise_deterministic (n : DDPG.OUNoise) (draws1 draws2 : ℕ → List ℚ)
    (h : ∀ k, draws1 k = draws2 k) :
    (∀ k, (DDPG.OUNoise.run n draws1 k).state = (DDPG.OUNoise.run n draws2 k).state) ∧
    (∀ k, ((DDPG.OUNoise.run n draws1 k).reset).state = n.mu) ∧
    (∀ shape muScalar theta sigma,
      ((DDPG.OUNoise.init shape muScalar theta sigma).reset).state
        = List.replicate shape muScalar) := by
  have hd : draws1 = draws2 := funext h
  subst hd
  refine ⟨fun k => rfl, fun k => ?_, fun _ _ _ _ => rfl⟩
  simp [DDPG.OUNoise.reset, run_mu]

/-- Witness for C8 with the script's parameters (`mu = 0`,
`theta = 0.15 = 3/20`, `sigma = 0.2 = 1/5`, one action dimension) and two
syntactically distinct but pointwise-equal draw streams. -/
theorem C8_noise_deterministic_witness :
    (∀ k, (DDPG.OUNoise.run (DDPG.OUNoise.init 1 0 (3/20) (1/5)) (fun _ => [1]) k).state
        = (DDPG.OUNoise.run (DDPG.OUNoise.init 1 0 (3/20) (1/5)) (fun j => [(j + 1) / (j + 1)]) k).state) ∧
    (∀ k, ((DDPG.OUNoise.run (DDPG.OUNoise.init 1 0 (3/20) (1/5)) (fun _ => [1]) k).reset).state
        = (DDPG.OUNoise.init 1 0 (3/20) (1/5)).mu) ∧
    (∀ shape muScalar theta sigma,
      ((DDPG.OUNoise.init shape muScalar theta sigma).reset).state
        = List.replicate shape muScalar) :=
  C8_noise_deterministic (DDPG.OUNoise.init 1 0 (3/20) (1/5))
    (fun _ => [1]) (fun j => [(j + 1) / (j + 1)])
    (fun k => by
      have hk : ((k : ℚ) + 1) ≠ 0 := by positivity
      simp [div_self hk])

/-- C9: the memory-game `main` fails with an assertion error, before
constructing the network, whenever the sum of the observation-space component
sizes differs from the (post-processed) `memory_cell_size`; and whenever
execution is past the assertion (the run produced an `ok` value, which is
where the network is constructed), the two are equal. -/
theorem C9_assert_memory_cell_size (nvec : List ℕ) (a : MemoryGame.MemArgs) :
    (nvec.sum ≠ ((MemoryGame.postProcess a).memory_cell_size).getD 0 →
      MemoryGame.memMainStart nvec a = Except.error PyError.assertionError) ∧
    (∀ r, MemoryGame.memMainStart nvec a = Except.ok r →
      nvec.sum = ((MemoryGame.postProcess a).memory_cell_size).getD 0) := by
  by_cases h : nvec.sum = ((MemoryGame.postProcess a).memory_cell_size).getD 0
  · exact ⟨fun hne => absurd h hne, fun r _ => h⟩
  · constructor
    · intro _
      simp [MemoryGame.memMainStart, h]
    · intro r hok
      simp [MemoryGame.memMainStart, h] at hok

/-- Witness for C9 with `nvec = [4, 2]` and `cards = 4` with all sizes unset,
so the defaulted `memory_cell_size` is `3 * 4 / 2 = 6 = 4 + 2`. -/
theorem C9_assert_memory_cell_size_witness :
    (([4, 2] : List ℕ).sum
        ≠ ((MemoryGame.postProcess ⟨4, 8, 80, 40, none, none, none⟩).memory_cell_size).getD 0 →
      MemoryGame.memMainStart [4, 2] ⟨4, 8, 80, 40, none, none, none⟩
        = Except.error PyError.assertionError) ∧
    (∀ r, MemoryGame.memMainStart [4, 2] ⟨4, 8, 80, 40, none, none, none⟩ = Except.ok r →
      ([4, 2] : List ℕ).sum
        = ((MemoryGame.postProcess ⟨4, 8, 80, 40, none, none, none⟩).memory_cell_size).getD 0) :=
  C9_assert_memory_cell_size [4, 2] ⟨4, 8, 80, 40, none, none, none⟩

/-- C10: in one training cycle between two periodic evaluations, the
memory-game loop calls `network.train` exactly `evaluate_each // batch_size`
times, each call receiving a list of exactly `batch_size` expert episodes; in
particular, when `batch_size` exceeds `evaluate_each` the cycle performs no
training call at all. -/
theorem C10_train_call_count {α : Type} (each bs : ℕ) (hbs : 0 < bs)
    (expert : ℕ → α) :
    (MemoryGame.trainCalls each bs expert).length = each / bs ∧
    (∀ c ∈ MemoryGame.trainCalls each bs expert, c.length = bs) ∧
    (each < bs → MemoryGame.trainCalls each bs expert = []) := by
  refine ⟨?_, ?_, ?_⟩
  · simp [MemoryGame.trainCalls]
  · intro c hc
    simp only [MemoryGame.trainCalls, List.mem_map, List.mem_range] at hc
    obtain ⟨i, _, rfl⟩ := hc
    simp
  · intro h
    have hz : each / bs = 0 := Nat.div_eq_of_lt h
    simp [MemoryGame.trainCalls, hz]

/-- Witness for C10 with `evaluate_each = 10` and `batch_size = 3`: three
training calls of three episodes each. -/
theorem C10_train_call_count_witness :
    (MemoryGame.trainCalls 10 3 (fun j => j)).length = 10 / 3 ∧
    (∀ c ∈ MemoryGame.trainCalls 10 3 (fun j => j), c.length = 3) ∧
    (10 < 3 → MemoryGame.trainCalls 10 3 (fun j => j) = []) :=
  C10_train_call_count 10 3 (by decide) (fun j => j)
